import Mathlib

/-!
Verification development for the geofence analysis engine of the
road-services repository.  The definitions below are a shallow embedding of
`src/geofence_core.py`: GPS floats are modelled as rationals (`ℚ`), the
haversine distance is computed over `ℝ`, Python dicts are ordered
association lists keyed by `String`, and the shapely polygon containment
predicate is embedded as an exact interior test on rational coordinates.
-/

/-- A GPS sample, as the `{'lat': ..., 'lon': ...}` dicts consumed by the
core (the `timestamp` entry is never read by the analysis code). -/
structure Pt where
  lat : ℚ
  lon : ℚ
deriving DecidableEq, Repr

/-- A planar point `(x, y)`; the code builds `Point(lon, lat)`, so `x` is
longitude and `y` is latitude. -/
abbrev XY := ℚ × ℚ

/-- Membership of `p` in the closed segment from `a` to `b`: the cross
product vanishes (collinear) and `p` is inside the bounding box. -/
def onSegment (a b p : XY) : Bool :=
  decide ((b.1 - a.1) * (p.2 - a.2) = (b.2 - a.2) * (p.1 - a.1) ∧
    min a.1 b.1 ≤ p.1 ∧ p.1 ≤ max a.1 b.1 ∧
    min a.2 b.2 ≤ p.2 ∧ p.2 ≤ max a.2 b.2)

/-- Edges of a polygon ring: consecutive vertex pairs, closing back to the
first vertex (shapely closes an open ring automatically). -/
def ringEdges (poly : List XY) : List (XY × XY) :=
  match poly with
  | [] => []
  | v :: _ => poly.zip (poly.tail ++ [v])

/-- The point lies exactly on the boundary of the polygon. -/
def pointOnBoundary (poly : List XY) (p : XY) : Bool :=
  (ringEdges poly).any (fun e => onSegment e.1 e.2 p)

/-- One step of the even-odd ray-casting rule: the horizontal ray from `p`
crosses the edge `e`. -/
def rayCrosses (e : XY × XY) (p : XY) : Bool :=
  decide (((e.1.2 > p.2) ≠ (e.2.2 > p.2)) ∧
    p.1 < e.1.1 + (p.2 - e.1.2) * (e.2.1 - e.1.1) / (e.2.2 - e.1.2))

/-- Parity of the number of polygon edges crossed by the horizontal ray
from `p`. -/
def oddCrossings (poly : List XY) (p : XY) : Bool :=
  (ringEdges poly).foldl (fun acc e => if rayCrosses e p then !acc else acc) false

/-- Embedding of shapely `polygon.contains(point)`: true exactly when the
point lies in the interior of the polygon.  The GEOS `contains` predicate
requires an interior intersection, so a point on the boundary is NOT
contained. -/
def shapelyContains (poly : List XY) (p : XY) : Bool :=
  !pointOnBoundary poly p && oddCrossings poly p

/-- A loaded geofence: `{'name': ..., 'polygon': ...}` (the unused
`properties` entry is omitted). -/
structure Geofence where
  name : String
  polygon : List XY
deriving DecidableEq, Repr

/-- Python `dict.get(k, d)` over an ordered association list. -/
def getD {α : Type} (m : List (String × α)) (k : String) (d : α) : α :=
  match m with
  | [] => d
  | kv :: rest => if kv.1 = k then kv.2 else getD rest k d

/-- Python `k in dict` over an ordered association list. -/
def hasKey {α : Type} (m : List (String × α)) (k : String) : Bool :=
  match m with
  | [] => false
  | kv :: rest => if kv.1 = k then true else hasKey rest k

/-- Python `dict[k] = v`: overwrite the entry in place if the key exists,
append it otherwise. -/
def setKey {α : Type} (m : List (String × α)) (k : String) (v : α) :
    List (String × α) :=
  match m with
  | [] => [(k, v)]
  | kv :: rest => if kv.1 = k then (kv.1, v) :: rest else kv :: setKey rest k v

/-- `GEOCERCA_KM_VALUES`: fixed kilometers per completed entry/exit cycle,
`none` marking the zone whose kilometers are measured as real distance. -/
def GEOCERCA_KM_VALUES : List (String × Option ℚ) :=
  [("aduana_420", some 37), ("colombia", some 60), ("nuevo_laredo", none)]

/-- One feature of the geofence definition file: `properties['id']`,
`properties['name']` and `geometry['coordinates'][0]`. -/
structure Feature where
  id : String
  name : String
  ring : List XY
deriving DecidableEq, Repr

/-- Outcome of opening and JSON-decoding the geofence definition source:
either the expected feature collection, or any exception (missing file,
malformed JSON, missing keys). -/
inductive LoadOutcome where
  | ok (features : List Feature)
  | failure
deriving DecidableEq, Repr

/-- `GeofenceService._load_geofences`: build the geofence dict from the
parsed features; every exception is caught, logged and turned into the
empty dict. -/
def loadGeofences : LoadOutcome → List (String × Geofence)
  | .ok fs => fs.map (fun f => (f.id, ⟨f.name, f.ring⟩))
  | .failure => []

/-- `GeofenceService`: the loaded geofence dict plus the module-level
`GEOCERCA_KM_VALUES` table. -/
structure GeofenceService where
  geofences : List (String × Geofence)
  km_values : List (String × Option ℚ)
deriving DecidableEq, Repr

/-- `GeofenceService.__init__`. -/
def GeofenceService.ofSource (src : LoadOutcome) : GeofenceService :=
  ⟨loadGeofences src, GEOCERCA_KM_VALUES⟩

/-- `GeofenceService.find_geofence`: first registered geofence whose
polygon contains `Point(lon, lat)`; `some (geofence_id, geofence_name)`
plays the role of `{'inside': True, ...}` and `none` of
`{'inside': False}`. -/
def find_geofence (geofences : List (String × Geofence)) (lat lon : ℚ) :
    Option (String × String) :=
  match geofences with
  | [] => none
  | (gid, gf) :: rest =>
      if shapelyContains gf.polygon (lon, lat) then some (gid, gf.name)
      else find_geofence rest lat lon

/-- `geofence_info.get('geofence_id')`: the zone id the point is classified
into, `none` when outside every zone. -/
def zoneOf (svc : GeofenceService) (p : Pt) : Option String :=
  (find_geofence svc.geofences p.lat p.lon).map Prod.fst

/-- `calculate_distance` helper: `math.radians`. -/
noncomputable def radians (x : ℚ) : ℝ := (x : ℝ) * Real.pi / 180

/-- `math.atan2 y x`, as the argument of the complex number `x + y*i`. -/
noncomputable def atan2 (y x : ℝ) : ℝ := Complex.arg ⟨x, y⟩

/-- The haversine intermediate
`a = sin(dlat/2)**2 + cos(lat1)*cos(lat2)*sin(dlon/2)**2`. -/
noncomputable def haversineA (lat1 lon1 lat2 lon2 : ℝ) : ℝ :=
  Real.sin ((lat2 - lat1) / 2) ^ 2 +
    Real.cos lat1 * Real.cos lat2 * Real.sin ((lon2 - lon1) / 2) ^ 2

/-- `calculate_distance`: haversine great-circle distance in kilometers,
Earth radius 6371 km. -/
noncomputable def calculate_distance (lat1 lon1 lat2 lon2 : ℚ) : ℝ :=
  6371 * (2 * atan2
    (Real.sqrt (haversineA (radians lat1) (radians lon1) (radians lat2) (radians lon2)))
    (Real.sqrt (1 - haversineA (radians lat1) (radians lon1) (radians lat2) (radians lon2))))

/-- Loop state of `calculate_real_distance_in_geofence`: the running total
and `prev_point = {'lat', 'lon', 'is_inside'}`. -/
structure RealDistState where
  total_distance_km : ℝ
  prev_point : Option (Pt × Bool)

/-- One iteration of the `calculate_real_distance_in_geofence` loop. -/
noncomputable def realDistStep (svc : GeofenceService) (target : String)
    (s : RealDistState) (p : Pt) : RealDistState :=
  ⟨match s.prev_point with
    | some (q, qin) =>
        if qin && decide (zoneOf svc p = some target) then
          s.total_distance_km + calculate_distance q.lat q.lon p.lat p.lon
        else s.total_distance_km
    | none => s.total_distance_km,
   some (p, decide (zoneOf svc p = some target))⟩

/-- `calculate_real_distance_in_geofence`: total kilometers of consecutive
segments whose two endpoints are both classified inside the target
geofence. -/
noncomputable def calculate_real_distance_in_geofence (gps_points : List Pt)
    (svc : GeofenceService) (target_geofence_id : String) : ℝ :=
  (gps_points.foldl (realDistStep svc target_geofence_id)
    ⟨0, none⟩).total_distance_km

/-- `distances[k] += v` preceded by `if k not in distances: distances[k] = 0`. -/
noncomputable def addDistance (m : List (String × ℝ)) (k : String) (d : ℝ) :
    List (String × ℝ) :=
  match m with
  | [] => [(k, d)]
  | kv :: rest =>
      if kv.1 = k then (kv.1, kv.2 + d) :: rest else kv :: addDistance rest k d

/-- Loop state of `calculate_real_distances`: the per-zone distance dict,
`prev_point` and `current_geofence`. -/
structure RealDistsState where
  distances : List (String × ℝ)
  prev_point : Option Pt
  current_geofence : Option String

/-- One iteration of the `calculate_real_distances` loop. -/
noncomputable def realDistsStep (svc : GeofenceService) (s : RealDistsState)
    (p : Pt) : RealDistsState :=
  match find_geofence svc.geofences p.lat p.lon with
  | some (gid, _) =>
      ⟨match s.prev_point with
        | some q =>
            if s.current_geofence = some gid then
              addDistance s.distances gid (calculate_distance q.lat q.lon p.lat p.lon)
            else s.distances
        | none => s.distances,
       some p, some gid⟩
  | none => ⟨s.distances, some p, none⟩

/-- `calculate_real_distances`: per-geofence real kilometers, summing a
segment into a zone's entry when the previous point was classified in the
same zone. -/
noncomputable def calculate_real_distances (gps_points : List Pt)
    (svc : GeofenceService) : List (String × ℝ) :=
  (gps_points.foldl (realDistsStep svc) ⟨[], none, none⟩).distances

/-- `EntryExitCounter`: the geofence service plus the per-vehicle state
dict `{vehicle_id: {'current_geofence': ...}}`. -/
structure EntryExitCounter where
  geofence_service : GeofenceService
  vehicle_states : List (String × Option String)
deriving DecidableEq, Repr

/-- Loop state of `count_entry_exit_cycles`: the per-zone cycle dict and
the tracked `current_geofence`. -/
structure CycleAcc where
  cycles_count : List (String × ℕ)
  current_geofence : Option String
deriving DecidableEq, Repr

/-- `cycles_count[k] += 1`.  In Python a missing key would raise
`KeyError`; keys are always geofence ids of the same registry, for which
the entry exists, and on a missing key this embedding is a no-op. -/
def incrCount (m : List (String × ℕ)) (k : String) : List (String × ℕ) :=
  match m with
  | [] => []
  | kv :: rest =>
      if kv.1 = k then (kv.1, kv.2 + 1) :: rest else kv :: incrCount rest k

/-- One iteration of the `count_entry_exit_cycles` loop: a cycle is counted
for the tracked zone when the vehicle was in a zone and the new sample is
classified in a different zone or outside all zones.  The guard
`if current_state['current_geofence'] and ...` uses Python truthiness: it
is false for `None` and also for the empty string, so a tracked zone whose
id is `""` never emits a cycle. -/
def cycleStep (svc : GeofenceService) (acc : CycleAcc) (p : Pt) : CycleAcc :=
  ⟨match acc.current_geofence with
    | some z =>
        if z ≠ "" ∧ zoneOf svc p ≠ some z then incrCount acc.cycles_count z
        else acc.cycles_count
    | none => acc.cycles_count,
   zoneOf svc p⟩

/-- `{geofence_id: 0 for geofence_id in self.geofence_service.geofences}`. -/
def initCounts (svc : GeofenceService) : List (String × ℕ) :=
  svc.geofences.map (fun kv => (kv.1, 0))

/-- `EntryExitCounter.count_entry_exit_cycles`: returns the per-zone cycle
dict for this call together with the updated counter (the vehicle's final
zone is persisted into `vehicle_states`). -/
def count_entry_exit_cycles (c : EntryExitCounter) (vehicle_id : String)
    (gps_points : List Pt) : List (String × ℕ) × EntryExitCounter :=
  ((gps_points.foldl (cycleStep c.geofence_service)
      ⟨initCounts c.geofence_service, getD c.vehicle_states vehicle_id none⟩).cycles_count,
   ⟨c.geofence_service,
    setKey c.vehicle_states vehicle_id
      (gps_points.foldl (cycleStep c.geofence_service)
        ⟨initCounts c.geofence_service,
         getD c.vehicle_states vehicle_id none⟩).current_geofence⟩)

/-- Value stored in one field of a per-zone result dict. -/
inductive FieldValue where
  | num (x : ℝ)
  | str (s : String)

/-- A per-zone result dict of `calculate_kilometers`. -/
abbrev ZoneResult := List (String × FieldValue)

/-- `EntryExitCounter.calculate_kilometers`: fixed-rate zones get
`cycles * km_value`, real-distance zones get the separately accumulated
real kilometers (defaulting to 0). -/
noncomputable def EntryExitCounter.calculate_kilometers (c : EntryExitCounter)
    (cycles_count : List (String × ℕ)) (real_distances : List (String × ℝ)) :
    List (String × ZoneResult) :=
  cycles_count.map (fun kv =>
    match getD c.geofence_service.km_values kv.1 none with
    | some km_value =>
        (kv.1, [("cycles", FieldValue.num kv.2),
          ("total_km", FieldValue.num ((kv.2 : ℝ) * (km_value : ℝ))),
          ("type", FieldValue.str "fixed_km")])
    | none =>
        (kv.1, [("cycles", FieldValue.num kv.2),
          ("total_km", FieldValue.num (getD real_distances kv.1 0)),
          ("type", FieldValue.str "real_km")]))

/-- `GeofenceAnalyzer`: the facade owning the service and the counter (in
the source both refer to the same service object). -/
structure GeofenceAnalyzer where
  geofence_service : GeofenceService
  entry_exit_counter : EntryExitCounter

/-- `GeofenceAnalyzer.__init__`. -/
def GeofenceAnalyzer.ofSource (src : LoadOutcome) : GeofenceAnalyzer :=
  ⟨GeofenceService.ofSource src, ⟨GeofenceService.ofSource src, []⟩⟩

/-- The `real_distances` dict built by `analyze_vehicle_data`: one entry
per `km_values` zone whose value is `None`, holding the real distance
accumulated inside that zone. -/
noncomputable def realDistancesFor (svc : GeofenceService)
    (gps_points : List Pt) : List (String × ℝ) :=
  (svc.km_values.filter (fun kv => kv.2.isNone)).map
    (fun kv => (kv.1, calculate_real_distance_in_geofence gps_points svc kv.1))

/-- `GeofenceAnalyzer.analyze_vehicle_data`: empty input short-circuits to
the empty dict; otherwise cycles are counted, real distances accumulated
for the real-distance zones, and the hybrid kilometers composed.  The
updated analyzer carries the counter's persisted vehicle state. -/
noncomputable def analyze_vehicle_data (a : GeofenceAnalyzer)
    (vehicle_name : String) (gps_points : List Pt) :
    List (String × ZoneResult) × GeofenceAnalyzer :=
  if gps_points = [] then ([], a)
  else
    ((count_entry_exit_cycles a.entry_exit_counter vehicle_name gps_points).2.calculate_kilometers
      (count_entry_exit_cycles a.entry_exit_counter vehicle_name gps_points).1
      (realDistancesFor a.geofence_service gps_points),
     ⟨a.geofence_service,
      (count_entry_exit_cycles a.entry_exit_counter vehicle_name gps_points).2⟩)

/-- Term contributed by one consecutive pair in the specification of the
real-distance accumulator (§4.4 of the spec): the haversine distance when
both endpoints are classified inside zone `Z`, zero otherwise. -/
noncomputable def pairTerm (svc : GeofenceService) (Z : String) (a b : Pt) : ℝ :=
  if zoneOf svc a = some Z ∧ zoneOf svc b = some Z then
    calculate_distance a.lat a.lon b.lat b.lon
  else 0

/-- Specification-side accumulator: sum of `pairTerm` over the consecutive
pairs of the trace. -/
noncomputable def specPairSum (svc : GeofenceService) (Z : String)
    (pts : List Pt) : ℝ :=
  ((pts.zip pts.tail).map (fun pq => pairTerm svc Z pq.1 pq.2)).sum

/-- Cycles emitted for zone `Z` while processing a trace from a given
tracked state, following the transition rule of the cycle tracker
(including the truthiness guard: a tracked empty-string id emits
nothing). -/
def cycleDelta (svc : GeofenceService) (st : Option String) (pts : List Pt)
    (Z : String) : ℕ :=
  match pts with
  | [] => 0
  | p :: rest =>
      (match st with
        | some z =>
            if (z ≠ "" ∧ zoneOf svc p ≠ some z) ∧ z = Z then 1 else 0
        | none => 0) + cycleDelta svc (zoneOf svc p) rest Z

/-- Tracked zone after processing a trace from a given state. -/
def finalState (svc : GeofenceService) (st : Option String) (pts : List Pt) :
    Option String :=
  match pts with
  | [] => st
  | p :: rest => finalState svc (zoneOf svc p) rest

/-- Modelled from the spec: §4.2 demands that registry construction on a
malformed or missing source "fails with a `ConfigurationError`" (no such
error type exists in the source, which catches every exception). -/
inductive ConfigurationError where
  | configurationError
deriving DecidableEq, Repr

/-- Modelled from the spec: registry construction as §4.2 describes it,
surfacing a `ConfigurationError` on a malformed or missing source. -/
def loadGeofencesSpec : LoadOutcome → Except ConfigurationError (List (String × Geofence))
  | .ok fs => .ok (fs.map (fun f => (f.id, ⟨f.name, f.ring⟩)))
  | .failure => .error .configurationError

/-- Test fixture: a closed square ring spanning longitudes 0..10 and
latitudes 0..10. -/
def sqA : List XY := [(0, 0), (10, 0), (10, 10), (0, 10), (0, 0)]

/-- Test fixture: a closed square ring spanning longitudes 20..30 and
latitudes 0..10. -/
def sqB : List XY := [(20, 0), (30, 0), (30, 10), (20, 10), (20, 0)]

/-- Test fixture: a two-zone registry. -/
def wGeofences : List (String × Geofence) :=
  [("A", ⟨"Zone A", sqA⟩), ("B", ⟨"Zone B", sqB⟩)]

/-- Test fixture: a service over the two-zone registry. -/
def wSvc : GeofenceService := ⟨wGeofences, GEOCERCA_KM_VALUES⟩

/-- Test fixture: a counter with no persisted vehicle state. -/
def wCounter : EntryExitCounter := ⟨wSvc, []⟩

/-- Test fixture: a point inside zone A. -/
def wPtA : Pt := ⟨5, 5⟩

/-- Test fixture: a point inside zone B. -/
def wPtB : Pt := ⟨5, 25⟩

/-- Test fixture: a point outside both zones. -/
def wPtOut : Pt := ⟨50, 50⟩

/-- Test fixture: a registry of zones with empty polygons (no point is ever
inside). -/
def eGeofences : List (String × Geofence) :=
  [("A", ⟨"Zone A", []⟩), ("B", ⟨"Zone B", []⟩)]

/-- Test fixture: a service over the empty-polygon registry. -/
def eSvc : GeofenceService := ⟨eGeofences, GEOCERCA_KM_VALUES⟩

/-- Test fixture: a registry with a single degenerate one-vertex zone. -/
def dotGeofences : List (String × Geofence) := [("E", ⟨"Zone E", [(0, 0)]⟩)]

/-- Test fixture: a registry whose single zone has the empty string as its
id (polygon: the 0..10 square). -/
def emptyIdGeofences : List (String × Geofence) := [("", ⟨"Anon", sqA⟩)]

/-- Test fixture: a service over the empty-id registry. -/
def emptyIdSvc : GeofenceService := ⟨emptyIdGeofences, GEOCERCA_KM_VALUES⟩

lemma getD_setKey_self {α : Type} (m : List (String × α)) (k : String)
    (v d : α) : getD (setKey m k v) k d = v := by
  induction m with
  | nil => simp [setKey, getD]
  | cons kv rest ih =>
      by_cases h : kv.1 = k
      · simp [setKey, h, getD]
      · simp [setKey, h, getD, ih]

lemma getD_of_hasKey_eq_false {α : Type} (m : List (String × α)) (k : String)
    (d : α) (h : hasKey m k = false) : getD m k d = d := by
  induction m with
  | nil => simp [getD]
  | cons kv rest ih =>
      by_cases h1 : kv.1 = k
      · simp [hasKey, h1] at h
      · simp [hasKey, h1] at h
        simp [getD, h1, ih h]

lemma hasKey_incrCount (m : List (String × ℕ)) (z k : String) :
    hasKey (incrCount m z) k = hasKey m k := by
  induction m with
  | nil => simp [incrCount]
  | cons kv rest ih =>
      by_cases h1 : kv.1 = z
      · simp [incrCount, h1, hasKey]
      · simp [incrCount, h1, hasKey, ih]

lemma getD_incrCount_self (m : List (String × ℕ)) (k : String)
    (h : hasKey m k = true) : getD (incrCount m k) k 0 = getD m k 0 + 1 := by
  induction m with
  | nil => simp [hasKey] at h
  | cons kv rest ih =>
      by_cases h1 : kv.1 = k
      · simp [incrCount, h1, getD]
      · simp [hasKey, h1] at h
        simp [incrCount, h1, getD, ih h]

lemma getD_incrCount_ne (m : List (String × ℕ)) (z k : String) (h : z ≠ k) :
    getD (incrCount m z) k 0 = getD m k 0 := by
  induction m with
  | nil => simp [incrCount]
  | cons kv rest ih =>
      by_cases h1 : kv.1 = z
      · simp [incrCount, h1, getD, h, Ne.symm h]
      · simp [incrCount, h1, getD, ih]

lemma getD_initCounts (svc : GeofenceService) (k : String) :
    getD (initCounts svc) k 0 = 0 := by
  unfold initCounts
  induction svc.geofences with
  | nil => simp [getD]
  | cons kv rest ih =>
      by_cases h : kv.1 = k
      · simp [getD, h]
      · simp [getD, h, ih]

lemma find_geofence_mem (gfs : List (String × Geofence)) (lat lon : ℚ)
    (gid name : String) (h : find_geofence gfs lat lon = some (gid, name)) :
    ∃ gf : Geofence, (gid, gf) ∈ gfs ∧
      shapelyContains gf.polygon (lon, lat) = true := by
  induction gfs with
  | nil => simp [find_geofence] at h
  | cons kv rest ih =>
      obtain ⟨k, gf⟩ := kv
      by_cases hc : shapelyContains gf.polygon (lon, lat) = true
      · rw [find_geofence, if_pos hc] at h
        obtain ⟨h1, h2⟩ := Prod.mk.injEq .. ▸ Option.some.inj h
        exact ⟨gf, by rw [← h1]; exact List.mem_cons_self _ _, hc⟩
      · rw [find_geofence, if_neg hc] at h
        obtain ⟨gf2, hmem, hc2⟩ := ih h
        exact ⟨gf2, List.mem_cons_of_mem _ hmem, hc2⟩

/-- C8: for every vehicle key, `analyze_vehicle_data` on an empty coordinate
sequence returns the empty mapping immediately and leaves the analyzer —
including the tracker's per-vehicle state — unchanged. -/
theorem c8_empty_input (a : GeofenceAnalyzer) (vehicle_name : String) :
    analyze_vehicle_data a vehicle_name [] = ([], a) := rfl

lemma sin_sq_neg (x : ℝ) : Real.sin (-x) ^ 2 = Real.sin x ^ 2 := by
  rw [Real.sin_neg]
  ring

lemma haversineA_symm (a b c d : ℝ) : haversineA a b c d = haversineA c d a b := by
  unfold haversineA
  rw [show (a - c) / 2 = -((c - a) / 2) by ring,
    show (b - d) / 2 = -((d - b) / 2) by ring, sin_sq_neg, sin_sq_neg]
  ring

lemma haversineA_self (a b : ℝ) : haversineA a b a b = 0 := by
  unfold haversineA
  simp

lemma atan2_nonneg (y x : ℝ) (h : 0 ≤ y) : 0 ≤ atan2 y x :=
  Complex.arg_nonneg_iff.mpr h

lemma atan2_zero_one : atan2 0 1 = 0 := by
  unfold atan2
  rw [show (⟨1, 0⟩ : ℂ) = 1 from Complex.ext rfl rfl]
  exact Complex.arg_one

/-- C9: `calculate_distance` is symmetric in its two coordinate pairs,
vanishes on identical coordinates, and is always nonnegative. -/
theorem c9_distance_function_properties (lat1 lon1 lat2 lon2 : ℚ) :
    calculate_distance lat1 lon1 lat2 lon2 = calculate_distance lat2 lon2 lat1 lon1 ∧
    calculate_distance lat1 lon1 lat1 lon1 = 0 ∧
    0 ≤ calculate_distance lat1 lon1 lat2 lon2 := by
  refine ⟨?_, ?_, ?_⟩
  · unfold calculate_distance
    rw [haversineA_symm]
  · unfold calculate_distance
    rw [haversineA_self]
    simp [atan2_zero_one]
  · unfold calculate_distance
    have h := atan2_nonneg
      (Real.sqrt (haversineA (radians lat1) (radians lon1) (radians lat2) (radians lon2)))
      (Real.sqrt (1 - haversineA (radians lat1) (radians lon1) (radians lat2) (radians lon2)))
      (Real.sqrt_nonneg _)
    exact mul_nonneg (by norm_num) (mul_nonneg (by norm_num) h)

/-- C6 counterexample: on a malformed or missing source, registry
construction in the code does not fail — `_load_geofences` catches the
exception and returns the empty dict, where the spec-modelled construction
demands a `ConfigurationError`. -/
theorem c6_counterexample :
    loadGeofences LoadOutcome.failure = [] ∧
    loadGeofencesSpec LoadOutcome.failure =
      Except.error ConfigurationError.configurationError :=
  ⟨rfl, rfl⟩

/-- C6 amended: if the zone definition source is malformed or missing,
registry construction does not raise; it completes with a registry holding
zero zones, and every lookup returns Outside for every point. -/
theorem c6_degraded_registry (lat lon : ℚ) :
    (GeofenceService.ofSource LoadOutcome.failure).geofences = [] ∧
    find_geofence (GeofenceService.ofSource LoadOutcome.failure).geofences
      lat lon = none :=
  ⟨rfl, rfl⟩

/-- C3: for every zone entry of the cycle-count mapping, `calculate_kilometers`
produces one result whose `total_km` is `cycles * km_value` under fixed
billing, and the separately accumulated real distance (default 0) under
real-distance billing, with the cycle count still reported. -/
theorem c3_metrics_composer (c : EntryExitCounter)
    (cycles_count : List (String × ℕ)) (real_distances : List (String × ℝ))
    (gid : String) (cycles : ℕ) (h : (gid, cycles) ∈ cycles_count) :
    (∀ r : ℚ, getD c.geofence_service.km_values gid none = some r →
      (gid, [("cycles", FieldValue.num cycles),
        ("total_km", FieldValue.num ((cycles : ℝ) * (r : ℝ))),
        ("type", FieldValue.str "fixed_km")]) ∈
        c.calculate_kilometers cycles_count real_distances) ∧
    (getD c.geofence_service.km_values gid none = none →
      (gid, [("cycles", FieldValue.num cycles),
        ("total_km", FieldValue.num (getD real_distances gid 0)),
        ("type", FieldValue.str "real_km")]) ∈
        c.calculate_kilometers cycles_count real_distances) := by
  constructor
  · intro r hr
    unfold EntryExitCounter.calculate_kilometers
    rw [List.mem_map]
    exact ⟨(gid, cycles), h, by simp [hr]⟩
  · intro hr
    unfold EntryExitCounter.calculate_kilometers
    rw [List.mem_map]
    exact ⟨(gid, cycles), h, by simp [hr]⟩

/-- C3 witness: two completed cycles in the fixed-rate zone `aduana_420`
yield `total_km = 2 * 37`. -/
theorem c3_metrics_composer_witness :
    (("aduana_420", 2) ∈ [("aduana_420", (2 : ℕ))]) ∧
    ("aduana_420", [("cycles", FieldValue.num ((2 : ℕ) : ℝ)),
      ("total_km", FieldValue.num (((2 : ℕ) : ℝ) * (((37 : ℚ)) : ℝ))),
      ("type", FieldValue.str "fixed_km")]) ∈
      wCounter.calculate_kilometers [("aduana_420", 2)] [] := by
  have h : ("aduana_420", 2) ∈ [("aduana_420", (2 : ℕ))] := by decide
  exact ⟨h, (c3_metrics_composer wCounter [("aduana_420", 2)] [] "aduana_420" 2 h).1
    37 (by decide)⟩

/-- C7 counterexample: the per-zone result produced for `aduana_420`
carries exactly the fields `cycles`, `total_km` and `type`; it holds no
`zone_id`, `billing_mode`, `km_per_cycle` or `real_distance_km` field, so
the claimed field set is wrong. -/
theorem c7_counterexample :
    (getD (wCounter.calculate_kilometers [("aduana_420", 1)] []) "aduana_420"
        []).map Prod.fst = ["cycles", "total_km", "type"] ∧
    hasKey (getD (wCounter.calculate_kilometers [("aduana_420", 1)] [])
      "aduana_420" []) "zone_id" = false ∧
    hasKey (getD (wCounter.calculate_kilometers [("aduana_420", 1)] [])
      "aduana_420" []) "billing_mode" = false ∧
    hasKey (getD (wCounter.calculate_kilometers [("aduana_420", 1)] [])
      "aduana_420" []) "km_per_cycle" = false ∧
    hasKey (getD (wCounter.calculate_kilometers [("aduana_420", 1)] [])
      "aduana_420" []) "real_distance_km" = false :=
  ⟨rfl, rfl, rfl, rfl, rfl⟩

/-- C7 amended: every per-zone result contains exactly the fields `cycles`,
`total_km` and `type` (the billing-mode tag, either `fixed_km` or
`real_km`); the zone id is only the mapping key, and no `km_per_cycle` or
`real_distance_km` field exists. -/
theorem c7_result_fields (c : EntryExitCounter)
    (cycles_count : List (String × ℕ)) (real_distances : List (String × ℝ))
    (gid : String) (res : ZoneResult)
    (h : (gid, res) ∈ c.calculate_kilometers cycles_count real_distances) :
    res.map Prod.fst = ["cycles", "total_km", "type"] ∧
    (getD res "type" (FieldValue.str "") = FieldValue.str "fixed_km" ∨
     getD res "type" (FieldValue.str "") = FieldValue.str "real_km") := by
  unfold EntryExitCounter.calculate_kilometers at h
  rw [List.mem_map] at h
  obtain ⟨kv, hkv, heq⟩ := h
  rcases hkm : getD c.geofence_service.km_values kv.1 none with _ | r
  · simp only [hkm] at heq
    obtain ⟨h1, h2⟩ := Prod.mk.injEq .. ▸ heq
    rw [← h2]
    exact ⟨rfl, Or.inr rfl⟩
  · simp only [hkm] at heq
    obtain ⟨h1, h2⟩ := Prod.mk.injEq .. ▸ heq
    rw [← h2]
    exact ⟨rfl, Or.inl rfl⟩

/-- C7 witness: the result produced for the real-distance zone
`nuevo_laredo` has exactly the three fields, tagged `real_km`. -/
theorem c7_result_fields_witness :
    (("nuevo_laredo", [("cycles", FieldValue.num ((0 : ℕ) : ℝ)),
      ("total_km", FieldValue.num (getD ([] : List (String × ℝ)) "nuevo_laredo" 0)),
      ("type", FieldValue.str "real_km")]) ∈
      wCounter.calculate_kilometers [("nuevo_laredo", 0)] []) ∧
    ([("cycles", FieldValue.num ((0 : ℕ) : ℝ)),
      ("total_km", FieldValue.num (getD ([] : List (String × ℝ)) "nuevo_laredo" 0)),
      ("type", FieldValue.str "real_km")] : ZoneResult).map Prod.fst =
        ["cycles", "total_km", "type"] := by
  have h : ("nuevo_laredo", [("cycles", FieldValue.num ((0 : ℕ) : ℝ)),
      ("total_km", FieldValue.num (getD ([] : List (String × ℝ)) "nuevo_laredo" 0)),
      ("type", FieldValue.str "real_km")]) ∈
      wCounter.calculate_kilometers [("nuevo_laredo", 0)] [] :=
    List.Mem.head _
  exact ⟨h, (c7_result_fields wCounter [("nuevo_laredo", 0)] [] "nuevo_laredo" _ h).1⟩

/-- C5 counterexample: the point with latitude 5, longitude 0 lies exactly
on the left edge of the square zone A, yet `find_geofence` classifies it as
outside every zone — shapely `contains` excludes the boundary. -/
theorem c5_counterexample :
    pointOnBoundary sqA (0, 5) = true ∧
    find_geofence wGeofences 5 0 = none := by
  constructor
  · norm_num [pointOnBoundary, ringEdges, onSegment, sqA]
  · norm_num [find_geofence, shapelyContains, pointOnBoundary, ringEdges,
      onSegment, oddCrossings, rayCrosses, sqA, sqB, wGeofences]

/-- C5 amended: a point lying exactly on an edge of every polygon
registered under zone id `Z` is never classified as inside `Z` by
`find_geofence`: the containment test requires the polygon's interior. -/
theorem c5_boundary_not_inside (gfs : List (String × Geofence)) (lat lon : ℚ)
    (Z : String)
    (hb : ∀ kv ∈ gfs, kv.1 = Z → pointOnBoundary kv.2.polygon (lon, lat) = true) :
    (find_geofence gfs lat lon).map Prod.fst ≠ some Z := by
  intro hcontra
  rw [Option.map_eq_some'] at hcontra
  obtain ⟨⟨gid, name⟩, hfind, hfst⟩ := hcontra
  have hgz : gid = Z := hfst
  subst hgz
  obtain ⟨gf, hmem, hc⟩ := find_geofence_mem _ _ _ _ _ hfind
  have hbd := hb (gid, gf) hmem rfl
  rw [shapelyContains, hbd] at hc
  simp at hc

/-- C5 witness: the single vertex of the degenerate zone E is on that
zone's boundary, and is not classified inside E. -/
theorem c5_boundary_not_inside_witness :
    (∀ kv ∈ dotGeofences, kv.1 = "E" →
      pointOnBoundary kv.2.polygon (0, 0) = true) ∧
    (find_geofence dotGeofences 0 0).map Prod.fst ≠ some "E" := by
  have hb : ∀ kv ∈ dotGeofences, kv.1 = "E" →
      pointOnBoundary kv.2.polygon (0, 0) = true := by
    intro kv hkv _
    rw [show dotGeofences = [("E", ⟨"Zone E", [(0, 0)]⟩)] from rfl,
      List.mem_singleton] at hkv
    subst hkv
    simp [pointOnBoundary, ringEdges, onSegment]
  exact ⟨hb, c5_boundary_not_inside dotGeofences 0 0 "E" hb⟩

lemma cycleStep_eq_emit (svc : GeofenceService) (m : List (String × ℕ))
    (z : String) (p : Pt) (hc : z ≠ "" ∧ zoneOf svc p ≠ some z) :
    cycleStep svc ⟨m, some z⟩ p = ⟨incrCount m z, zoneOf svc p⟩ := by
  simp only [cycleStep]
  rw [if_pos hc]

lemma cycleStep_eq_skip (svc : GeofenceService) (m : List (String × ℕ))
    (z : String) (p : Pt) (hc : ¬ (z ≠ "" ∧ zoneOf svc p ≠ some z)) :
    cycleStep svc ⟨m, some z⟩ p = ⟨m, zoneOf svc p⟩ := by
  simp only [cycleStep]
  rw [if_neg hc]

lemma cycleStep_eq_none (svc : GeofenceService) (m : List (String × ℕ))
    (p : Pt) : cycleStep svc ⟨m, none⟩ p = ⟨m, zoneOf svc p⟩ := rfl

lemma cycleStep_fold_state (svc : GeofenceService) (pts : List Pt) :
    ∀ (m : List (String × ℕ)) (st : Option String),
      (pts.foldl (cycleStep svc) ⟨m, st⟩).current_geofence
        = finalState svc st pts := by
  induction pts with
  | nil => intro m st; rfl
  | cons p rest ih =>
      intro m st
      rw [List.foldl_cons]
      rcases st with _ | z
      · rw [cycleStep_eq_none]
        exact ih _ _
      · by_cases hc : z ≠ "" ∧ zoneOf svc p ≠ some z
        · rw [cycleStep_eq_emit svc m z p hc]
          exact ih _ _
        · rw [cycleStep_eq_skip svc m z p hc]
          exact ih _ _

lemma cycleStep_fold_hasKey (svc : GeofenceService) (pts : List Pt) :
    ∀ (m : List (String × ℕ)) (st : Option String) (k : String),
      hasKey (pts.foldl (cycleStep svc) ⟨m, st⟩).cycles_count k = hasKey m k := by
  induction pts with
  | nil => intro m st k; rfl
  | cons p rest ih =>
      intro m st k
      rw [List.foldl_cons]
      rcases st with _ | z
      · rw [cycleStep_eq_none]
        exact ih _ _ _
      · by_cases hc : z ≠ "" ∧ zoneOf svc p ≠ some z
        · rw [cycleStep_eq_emit svc m z p hc, ih, hasKey_incrCount]
        · rw [cycleStep_eq_skip svc m z p hc]
          exact ih _ _ _

lemma cycleStep_fold_getD (svc : GeofenceService) (Z : String) (pts : List Pt) :
    ∀ (m : List (String × ℕ)) (st : Option String), hasKey m Z = true →
      getD (pts.foldl (cycleStep svc) ⟨m, st⟩).cycles_count Z 0
        = getD m Z 0 + cycleDelta svc st pts Z := by
  induction pts with
  | nil => intro m st h; simp [cycleDelta]
  | cons p rest ih =>
      intro m st h
      rw [List.foldl_cons]
      rcases st with _ | z
      · rw [cycleStep_eq_none, ih m (zoneOf svc p) h]
        simp [cycleDelta]
      · by_cases hc : z ≠ "" ∧ zoneOf svc p ≠ some z
        · rw [cycleStep_eq_emit svc m z p hc,
            ih (incrCount m z) (zoneOf svc p) (by rw [hasKey_incrCount]; exact h)]
          by_cases hz : z = Z
          · subst hz
            rw [getD_incrCount_self m z h]
            have hdelta : cycleDelta svc (some z) (p :: rest) z
                = 1 + cycleDelta svc (zoneOf svc p) rest z := by
              simp [cycleDelta, hc.1, hc.2]
            rw [hdelta]
            omega
          · rw [getD_incrCount_ne m z Z hz]
            simp [cycleDelta, hz]
        · rw [cycleStep_eq_skip svc m z p hc, ih m (zoneOf svc p) h]
          simp [cycleDelta, hc]

lemma cycleDelta_append (svc : GeofenceService) (Z : String) (pre suf : List Pt) :
    ∀ st : Option String,
      cycleDelta svc st (pre ++ suf) Z
        = cycleDelta svc st pre Z
          + cycleDelta svc (finalState svc st pre) suf Z := by
  induction pre with
  | nil => intro st; simp [cycleDelta, finalState]
  | cons p rest ih =>
      intro st
      rw [List.cons_append]
      rcases st with _ | z
      · simp only [cycleDelta, finalState, ih (zoneOf svc p)]
        omega
      · simp only [cycleDelta, finalState, ih (zoneOf svc p)]
        omega

lemma count_cycles_getD (c : EntryExitCounter) (v : String) (pts : List Pt)
    (Z : String) (hk : hasKey (initCounts c.geofence_service) Z = true) :
    getD (count_entry_exit_cycles c v pts).1 Z 0
      = cycleDelta c.geofence_service (getD c.vehicle_states v none) pts Z := by
  unfold count_entry_exit_cycles
  simp only
  rw [cycleStep_fold_getD _ _ _ _ _ hk, getD_initCounts, Nat.zero_add]

lemma count_cycles_getD_zero (c : EntryExitCounter) (v : String) (pts : List Pt)
    (Z : String) (hk : hasKey (initCounts c.geofence_service) Z = false) :
    getD (count_entry_exit_cycles c v pts).1 Z 0 = 0 := by
  unfold count_entry_exit_cycles
  simp only
  exact getD_of_hasKey_eq_false _ _ _ (by rw [cycleStep_fold_hasKey]; exact hk)

lemma count_cycles_state (c : EntryExitCounter) (v : String) (pts : List Pt) :
    (count_entry_exit_cycles c v pts).2
      = ⟨c.geofence_service, setKey c.vehicle_states v
          (finalState c.geofence_service (getD c.vehicle_states v none) pts)⟩ := by
  unfold count_entry_exit_cycles
  simp only [cycleStep_fold_state]

/-- C1 counterexample: with a registered zone whose id is the empty string
(polygon: the 0..10 square), a sample inside it moves the tracked state to
`InZone ""`, and the next sample, outside every zone, emits NO cycle: the
Python truthiness guard treats the tracked empty-string id as falsy, so the
claimed from-any-`InZone(Z)` emission rule fails at `Z = ""`. -/
theorem c1_counterexample :
    cycleStep emptyIdSvc ⟨[("", 0)], none⟩ wPtA = ⟨[("", 0)], some ""⟩ ∧
    zoneOf emptyIdSvc wPtOut ≠ some "" ∧
    (cycleStep emptyIdSvc ⟨[("", 0)], some ""⟩ wPtOut).cycles_count
      = [("", 0)] := by
  refine ⟨?_, ?_, ?_⟩
  · norm_num [cycleStep, zoneOf, emptyIdSvc, emptyIdGeofences, find_geofence,
      shapelyContains, pointOnBoundary, ringEdges, onSegment, oddCrossings,
      rayCrosses, sqA, wPtA]
  · have hz : zoneOf emptyIdSvc wPtOut = none := by
      norm_num [zoneOf, emptyIdSvc, emptyIdGeofences, find_geofence,
        shapelyContains, pointOnBoundary, ringEdges, onSegment, oddCrossings,
        rayCrosses, sqA, wPtOut]
    rw [hz]
    simp
  · simp [cycleStep]

/-- C1 amended: the per-point transition rule of the cycle tracker.  From
tracked state `InZone Z` with `Z` a non-empty id, a sample matched to a
different zone or to no zone emits exactly one cycle for `Z` (other zones
unchanged) and moves the state to the new match; from `NoZone`, or when
the new match equals the tracked zone, no cycle is emitted; a tracked
empty-string id is treated as falsy by the guard and also emits nothing.
In every case the state becomes the new match. -/
theorem c1_cycle_transition (svc : GeofenceService)
    (counts : List (String × ℕ)) (st : Option String) (p : Pt) (Z : String)
    (hZ : hasKey counts Z = true) :
    (Z ≠ "" → st = some Z → zoneOf svc p ≠ some Z →
      getD (cycleStep svc ⟨counts, st⟩ p).cycles_count Z 0 = getD counts Z 0 + 1 ∧
      (∀ W, W ≠ Z →
        getD (cycleStep svc ⟨counts, st⟩ p).cycles_count W 0 = getD counts W 0) ∧
      (cycleStep svc ⟨counts, st⟩ p).current_geofence = zoneOf svc p) ∧
    (st = none →
      (cycleStep svc ⟨counts, st⟩ p).cycles_count = counts ∧
      (cycleStep svc ⟨counts, st⟩ p).current_geofence = zoneOf svc p) ∧
    (st = some Z → zoneOf svc p = some Z →
      (cycleStep svc ⟨counts, st⟩ p).cycles_count = counts ∧
      (cycleStep svc ⟨counts, st⟩ p).current_geofence = zoneOf svc p) ∧
    (st = some "" →
      (cycleStep svc ⟨counts, st⟩ p).cycles_count = counts ∧
      (cycleStep svc ⟨counts, st⟩ p).current_geofence = zoneOf svc p) := by
  refine ⟨?_, ?_, ?_, ?_⟩
  · intro hne hst hc
    subst hst
    rw [cycleStep_eq_emit svc counts Z p ⟨hne, hc⟩]
    exact ⟨getD_incrCount_self counts Z hZ,
      fun W hW => getD_incrCount_ne counts Z W (Ne.symm hW), rfl⟩
  · intro hst
    subst hst
    rw [cycleStep_eq_none]
    exact ⟨rfl, rfl⟩
  · intro hst heq
    subst hst
    rw [cycleStep_eq_skip svc counts Z p (fun hcond => hcond.2 heq)]
    exact ⟨rfl, rfl⟩
  · intro hst
    subst hst
    rw [cycleStep_eq_skip svc counts "" p (fun hcond => hcond.1 rfl)]
    exact ⟨rfl, rfl⟩

/-- C1 witness: tracked in zone A (a non-empty id), a sample outside every
zone emits one cycle for A. -/
theorem c1_cycle_transition_witness :
    hasKey [("A", (0 : ℕ)), ("B", 0)] "A" = true ∧
    getD (cycleStep eSvc ⟨[("A", 0), ("B", 0)], some "A"⟩ wPtOut).cycles_count
        "A" 0
      = getD [("A", (0 : ℕ)), ("B", 0)] "A" 0 + 1 := by
  have hZ : hasKey [("A", (0 : ℕ)), ("B", 0)] "A" = true := by decide
  exact ⟨hZ, ((c1_cycle_transition eSvc [("A", 0), ("B", 0)] (some "A") wPtOut
    "A" hZ).1 (by decide) rfl (by decide)).1⟩

/-- C2: splitting a trace at any point into two successive calls for the
same vehicle key and summing the per-zone cycle counts gives the same
per-zone totals as one call over the full trace, because the final zone
state is persisted and picked up by the second call. -/
theorem c2_split_additivity (c : EntryExitCounter) (v : String)
    (pre suf : List Pt) (Z : String) :
    getD (count_entry_exit_cycles c v (pre ++ suf)).1 Z 0 =
      getD (count_entry_exit_cycles c v pre).1 Z 0 +
      getD (count_entry_exit_cycles
        (count_entry_exit_cycles c v pre).2 v suf).1 Z 0 := by
  by_cases hk : hasKey (initCounts c.geofence_service) Z = true
  · rw [count_cycles_getD c v (pre ++ suf) Z hk, count_cycles_getD c v pre Z hk,
      count_cycles_state c v pre,
      count_cycles_getD ⟨c.geofence_service, setKey c.vehicle_states v
        (finalState c.geofence_service (getD c.vehicle_states v none) pre)⟩
        v suf Z hk]
    simp only [getD_setKey_self]
    rw [cycleDelta_append]
  · have hk2 : hasKey (initCounts c.geofence_service) Z = false := by
      simpa using hk
    rw [count_cycles_getD_zero c v (pre ++ suf) Z hk2,
      count_cycles_getD_zero c v pre Z hk2, count_cycles_state c v pre,
      count_cycles_getD_zero ⟨c.geofence_service, setKey c.vehicle_states v
        (finalState c.geofence_service (getD c.vehicle_states v none) pre)⟩
        v suf Z hk2]

lemma specPairSum_single (svc : GeofenceService) (Z : String) (q : Pt) :
    specPairSum svc Z [q] = 0 := rfl

lemma specPairSum_cons_cons (svc : GeofenceService) (Z : String) (a b : Pt)
    (l : List Pt) :
    specPairSum svc Z (a :: b :: l)
      = pairTerm svc Z a b + specPairSum svc Z (b :: l) := rfl

lemma crdig_fold (svc : GeofenceService) (Z : String) (pts : List Pt) :
    ∀ (t : ℝ) (q : Pt),
      ((pts.foldl (realDistStep svc Z)
          ⟨t, some (q, decide (zoneOf svc q = some Z))⟩).total_distance_km)
        = t + specPairSum svc Z (q :: pts) := by
  induction pts with
  | nil =>
      intro t q
      rw [List.foldl_nil, specPairSum_single]
      exact (add_zero t).symm
  | cons p rest ih =>
      intro t q
      rw [List.foldl_cons]
      have hstep : realDistStep svc Z
          ⟨t, some (q, decide (zoneOf svc q = some Z))⟩ p
          = ⟨(if decide (zoneOf svc q = some Z) && decide (zoneOf svc p = some Z)
                then t + calculate_distance q.lat q.lon p.lat p.lon else t),
             some (p, decide (zoneOf svc p = some Z))⟩ := rfl
      rw [hstep, ih, specPairSum_cons_cons]
      by_cases hq : zoneOf svc q = some Z
      · by_cases hp : zoneOf svc p = some Z
        · simp [pairTerm, hq, hp]
          ring
        · simp [pairTerm, hq, hp]
      · simp [pairTerm, hq]

lemma crdig_spec (svc : GeofenceService) (Z : String) (pts : List Pt) :
    calculate_real_distance_in_geofence pts svc Z = specPairSum svc Z pts := by
  cases pts with
  | nil => rfl
  | cons p rest =>
      unfold calculate_real_distance_in_geofence
      rw [List.foldl_cons]
      have hstep : realDistStep svc Z ⟨0, none⟩ p
          = ⟨0, some (p, decide (zoneOf svc p = some Z))⟩ := rfl
      rw [hstep, crdig_fold]
      exact zero_add _

lemma addDistance_getD (m : List (String × ℝ)) (k Z : String) (d : ℝ) :
    getD (addDistance m k d) Z 0 = getD m Z 0 + if k = Z then d else 0 := by
  induction m with
  | nil =>
      by_cases hz : k = Z
      · simp [addDistance, getD, hz]
      · simp [addDistance, getD, hz]
  | cons kv rest ih =>
      by_cases h1 : kv.1 = k
      · by_cases hz : kv.1 = Z
        · have hkz : k = Z := h1.symm.trans hz
          simp [addDistance, getD, h1, hz, hkz]
        · have hkz : ¬ k = Z := fun hc => hz (h1.trans hc)
          simp [addDistance, getD, h1, hz, hkz]
      · by_cases hz : kv.1 = Z
        · have hkz : ¬ k = Z := fun hc => h1 (hz.trans hc.symm)
          have hzk : ¬ Z = k := fun hc => hkz hc.symm
          simp [addDistance, getD, h1, hz, hkz, hzk]
        · simp [addDistance, getD, h1, hz, ih]

lemma crds_fold (svc : GeofenceService) (Z : String) (pts : List Pt) :
    ∀ (m : List (String × ℝ)) (q : Pt),
      getD ((pts.foldl (realDistsStep svc)
          ⟨m, some q, zoneOf svc q⟩).distances) Z 0
        = getD m Z 0 + specPairSum svc Z (q :: pts) := by
  induction pts with
  | nil =>
      intro m q
      rw [List.foldl_nil, specPairSum_single]
      exact (add_zero _).symm
  | cons p rest ih =>
      intro m q
      rw [List.foldl_cons]
      rcases hp : find_geofence svc.geofences p.lat p.lon with _ | pr
      · have hzp : zoneOf svc p = none := by simp [zoneOf, hp]
        have hstep : realDistsStep svc ⟨m, some q, zoneOf svc q⟩ p
            = ⟨m, some p, zoneOf svc p⟩ := by
          simp only [realDistsStep, hp, hzp]
        rw [hstep, ih, specPairSum_cons_cons]
        have hpt : pairTerm svc Z q p = 0 := by
          simp [pairTerm, hzp]
        rw [hpt]
        ring
      · obtain ⟨gid, nm⟩ := pr
        have hzp : zoneOf svc p = some gid := by simp [zoneOf, hp]
        by_cases hq : zoneOf svc q = some gid
        · have hstep : realDistsStep svc ⟨m, some q, zoneOf svc q⟩ p
              = ⟨addDistance m gid (calculate_distance q.lat q.lon p.lat p.lon),
                 some p, zoneOf svc p⟩ := by
            simp only [realDistsStep, hp, hzp]
            rw [if_pos hq]
          rw [hstep, ih, addDistance_getD, specPairSum_cons_cons]
          by_cases hgz : gid = Z
          · subst hgz
            have hpt : pairTerm svc gid q p
                = calculate_distance q.lat q.lon p.lat p.lon := by
              simp [pairTerm, hq, hzp]
            rw [hpt, if_pos rfl]
            ring
          · have hpt : pairTerm svc Z q p = 0 := by
              unfold pairTerm
              rw [if_neg]
              rintro ⟨h1, h2⟩
              rw [hzp] at h2
              exact hgz (Option.some.inj h2)
            rw [hpt, if_neg hgz]
            ring
        · have hstep : realDistsStep svc ⟨m, some q, zoneOf svc q⟩ p
              = ⟨m, some p, zoneOf svc p⟩ := by
            simp only [realDistsStep, hp, hzp]
            rw [if_neg hq]
          rw [hstep, ih, specPairSum_cons_cons]
          have hpt : pairTerm svc Z q p = 0 := by
            unfold pairTerm
            rw [if_neg]
            rintro ⟨h1, h2⟩
            rw [hzp] at h2
            have hgz : gid = Z := Option.some.inj h2
            exact hq (by rw [h1, hgz])
          rw [hpt]
          ring

lemma crds_spec (svc : GeofenceService) (Z : String) (pts : List Pt) :
    getD (calculate_real_distances pts svc) Z 0 = specPairSum svc Z pts := by
  cases pts with
  | nil => rfl
  | cons p rest =>
      unfold calculate_real_distances
      rw [List.foldl_cons]
      rcases hp : find_geofence svc.geofences p.lat p.lon with _ | pr
      · have hzp : zoneOf svc p = none := by simp [zoneOf, hp]
        have hstep : realDistsStep svc ⟨[], none, none⟩ p
            = ⟨[], some p, zoneOf svc p⟩ := by
          simp only [realDistsStep, hp, hzp]
        rw [hstep, crds_fold]
        simp [getD]
      · obtain ⟨gid, nm⟩ := pr
        have hzp : zoneOf svc p = some gid := by simp [zoneOf, hp]
        have hstep : realDistsStep svc ⟨[], none, none⟩ p
            = ⟨[], some p, zoneOf svc p⟩ := by
          simp only [realDistsStep, hp, hzp]
        rw [hstep, crds_fold]
        simp [getD]

/-- C4: the single-zone accumulator equals the sum of haversine distances
over exactly the consecutive pairs classified inside the target zone
(every other pair contributes zero); the facade computes it only for zones
whose billing mode is real-distance; and a zone never visited accumulates
zero. -/
theorem c4_real_distance_accumulator (svc : GeofenceService) (pts : List Pt)
    (Z : String) :
    calculate_real_distance_in_geofence pts svc Z = specPairSum svc Z pts ∧
    (∀ gid d, (gid, d) ∈ realDistancesFor svc pts →
      (gid, none) ∈ svc.km_values ∧
      d = calculate_real_distance_in_geofence pts svc gid) ∧
    ((∀ p ∈ pts, zoneOf svc p ≠ some Z) →
      calculate_real_distance_in_geofence pts svc Z = 0) := by
  refine ⟨crdig_spec svc Z pts, ?_, ?_⟩
  · intro gid d hmem
    unfold realDistancesFor at hmem
    rw [List.mem_map] at hmem
    obtain ⟨kv, hkv, heq⟩ := hmem
    rw [List.mem_filter] at hkv
    obtain ⟨hkv1, hkv2⟩ := hkv
    obtain ⟨h1, h2⟩ := Prod.mk.injEq .. ▸ heq
    have hnone : kv.2 = none := Option.isNone_iff_eq_none.mp hkv2
    constructor
    · rw [← h1, ← hnone]
      exact hkv1
    · rw [← h2, h1]
  · intro hout
    rw [crdig_spec svc Z pts]
    unfold specPairSum
    apply List.sum_eq_zero
    intro x hx
    rw [List.mem_map] at hx
    obtain ⟨pq, hpq, hx⟩ := hx
    have h1 : pq.1 ∈ pts := (List.of_mem_zip hpq).1
    rw [← hx]
    unfold pairTerm
    rw [if_neg]
    rintro ⟨hc1, hc2⟩
    exact hout pq.1 h1 hc1

/-- C4 witness: a trace that never enters zone A accumulates zero real
distance for A. -/
theorem c4_real_distance_accumulator_witness :
    (∀ p ∈ [wPtOut], zoneOf eSvc p ≠ some "A") ∧
    calculate_real_distance_in_geofence [wPtOut] eSvc "A" = 0 := by
  have h : ∀ p ∈ [wPtOut], zoneOf eSvc p ≠ some "A" := by decide
  exact ⟨h, (c4_real_distance_accumulator eSvc [wPtOut] "A").2.2 h⟩

/-- C10: the single-zone accumulator and the all-zones accumulator agree:
for every trace, service and zone id, `calculate_real_distance_in_geofence`
returns what `calculate_real_distances` holds at that zone (default 0). -/
theorem c10_accumulator_variants_agree (svc : GeofenceService) (pts : List Pt)
    (Z : String) :
    calculate_real_distance_in_geofence pts svc Z
      = getD (calculate_real_distances pts svc) Z 0 := by
  rw [crdig_spec, crds_spec]
